import Mathlib

/-!
Shallow embedding of the vibe-translator backend core:
the in-memory repository (`server/storage.ts`), the Gemini response
normalization (`server/services/gemini.ts`) and the Community Archive
client (`server/services/community-archive.ts`).

JavaScript `Map` objects are modelled as association lists in insertion
order (`Map.set` on an existing key replaces the value in place, keeping
the original position; on a fresh key it appends).  Timestamps (`Date`
values) are modelled as integers supplied explicitly as a clock input.
External host primitives (`fetch`, `JSON.parse`) are modelled as explicit
parameters: the fetch outcome as a value of an outcome type, and the
host JSON parser as a function `String → Option JSValue` (`none` models
a parse exception).
-/

namespace VibeTranslator

/-- Association list in insertion order, modelling a JavaScript `Map` with
integer keys. -/
abbrev JsMap (α : Type) : Type := List (Int × α)

/-- `Map.get`: first entry with the key (keys are unique in practice). -/
def mapGet {α : Type} (m : JsMap α) (k : Int) : Option α :=
  (m.find? (fun p => p.1 == k)).map Prod.snd

/-- `Map.set`: replace in place when the key exists, append otherwise. -/
def mapSet {α : Type} (m : JsMap α) (k : Int) (v : α) : JsMap α :=
  if m.any (fun p => p.1 == k) then
    m.map (fun p => if p.1 == k then (k, v) else p)
  else
    m ++ [(k, v)]

/-- `Map.values()` in insertion order. -/
def mapValues {α : Type} (m : JsMap α) : List α := m.map Prod.snd

/-- Row type of the `users` table (`shared/schema.ts`). -/
structure User where
  id : Int
  username : String
  twitterHandle : String
deriving DecidableEq, Repr

/-- Insert payload accepted by `insertUserSchema` (`createInsertSchema(users)`):
the serial `id` column is optional, the rest required. -/
structure InsertUser where
  id : Option Int
  username : String
  twitterHandle : String
deriving DecidableEq, Repr

/-- Row type of the `insights` table.  `userId` is a nullable reference;
`none` models both SQL `NULL` and an absent JavaScript property (every use
is a strict-equality comparison against a number, false for both). -/
structure Insight where
  id : Int
  userId : Option Int
  description : String
  lifeExperiences : List String
  concepts : List String
  subcultures : List String
  writingStyle : String
  lastUpdated : Int
deriving DecidableEq, Repr

/-- Insert payload accepted by `insertInsightSchema`. -/
structure InsertInsight where
  id : Option Int
  userId : Option Int
  description : String
  lifeExperiences : List String
  concepts : List String
  subcultures : List String
  writingStyle : String
  lastUpdated : Int
deriving DecidableEq, Repr

/-- `Partial<InsertInsight>` as taken by `updateInsight`: each field may be
present (`some`) or absent (`none`); for `userId` the inner option is the
nullable column value. -/
structure InsightPatch where
  id : Option Int
  userId : Option (Option Int)
  description : Option String
  lifeExperiences : Option (List String)
  concepts : Option (List String)
  subcultures : Option (List String)
  writingStyle : Option String
  lastUpdated : Option Int
deriving DecidableEq, Repr

/-- Row type of the `comparisons` table. -/
structure Comparison where
  id : Int
  userAId : Option Int
  userBId : Option Int
  argumentText : String
  explanation : String
  createdAt : Int
deriving DecidableEq, Repr

/-- Insert payload accepted by `insertComparisonSchema`; `createdAt` is a
required column, so the caller supplies one (which `createComparison`
overrides). -/
structure InsertComparison where
  id : Option Int
  userAId : Option Int
  userBId : Option Int
  argumentText : String
  explanation : String
  createdAt : Int
deriving DecidableEq, Repr

/-- State of `MemStorage`: the three maps and the three id counters. -/
structure MemStorage where
  users : JsMap User
  insights : JsMap Insight
  comparisons : JsMap Comparison
  currentUserId : Int
  currentInsightId : Int
  currentComparisonId : Int

/-- The `MemStorage` constructor: empty maps, all counters at 1. -/
def MemStorage.init : MemStorage :=
  { users := [], insights := [], comparisons := [],
    currentUserId := 1, currentInsightId := 1, currentComparisonId := 1 }

/-- `getUser(id)`: `this.users.get(id)`. -/
def getUser (s : MemStorage) (id : Int) : Option User :=
  mapGet s.users id

/-- `getUserByTwitterHandle(handle)`: linear scan over `users.values()`,
first user whose `twitterHandle` equals `handle` exactly. -/
def getUserByTwitterHandle (s : MemStorage) (handle : String) : Option User :=
  (mapValues s.users).find? (fun u => u.twitterHandle == handle)

/-- `createUser(insertUser)`: `const id = this.currentIds.user++;
const user = { id, ...insertUser }; this.users.set(id, user)`.  The spread
comes after `id`, so a payload-supplied `id` overrides the assigned one in
the record, while the map key is the assigned counter value. -/
def createUser (s : MemStorage) (ins : InsertUser) : User × MemStorage :=
  let id := s.currentUserId
  let user : User :=
    { id := ins.id.getD id, username := ins.username,
      twitterHandle := ins.twitterHandle }
  (user, { s with users := mapSet s.users id user, currentUserId := id + 1 })

/-- `getInsight(userId)`: linear scan over `insights.values()`, first
insight with `insight.userId === userId`. -/
def getInsight (s : MemStorage) (userId : Int) : Option Insight :=
  (mapValues s.insights).find? (fun i => i.userId == some userId)

/-- `createInsight(insertInsight)`: same shape as `createUser`. -/
def createInsight (s : MemStorage) (ins : InsertInsight) : Insight × MemStorage :=
  let id := s.currentInsightId
  let insight : Insight :=
    { id := ins.id.getD id, userId := ins.userId,
      description := ins.description, lifeExperiences := ins.lifeExperiences,
      concepts := ins.concepts, subcultures := ins.subcultures,
      writingStyle := ins.writingStyle, lastUpdated := ins.lastUpdated }
  (insight,
   { s with insights := mapSet s.insights id insight,
            currentInsightId := id + 1 })

/-- Shallow merge `{ ...existing, ...updateData }`: a field present in the
patch replaces the existing one. -/
def applyPatch (existing : Insight) (p : InsightPatch) : Insight :=
  { id := p.id.getD existing.id,
    userId := p.userId.getD existing.userId,
    description := p.description.getD existing.description,
    lifeExperiences := p.lifeExperiences.getD existing.lifeExperiences,
    concepts := p.concepts.getD existing.concepts,
    subcultures := p.subcultures.getD existing.subcultures,
    writingStyle := p.writingStyle.getD existing.writingStyle,
    lastUpdated := p.lastUpdated.getD existing.lastUpdated }

/-- `updateInsight(id, updateData)`: throws `Insight not found: id` when the
id is absent (the state is returned unchanged, as the throw happens before
any write); otherwise stores and returns the shallow merge. -/
def updateInsight (s : MemStorage) (id : Int) (p : InsightPatch) :
    Except String Insight × MemStorage :=
  match mapGet s.insights id with
  | none => (Except.error ("Insight not found: " ++ toString id), s)
  | some existing =>
    let updated := applyPatch existing p
    (Except.ok updated, { s with insights := mapSet s.insights id updated })

/-- `getComparison(id)`: `this.comparisons.get(id)`. -/
def getComparison (s : MemStorage) (id : Int) : Option Comparison :=
  mapGet s.comparisons id

/-- `createComparison(insertComparison)`:
`{ id, ...insertComparison, createdAt: new Date() }` — `createdAt` comes
after the spread, so the server clock always wins; `id` comes before it,
so a payload-supplied `id` overrides the assigned one in the record.
`now` is the value of `new Date()` at the call. -/
def createComparison (s : MemStorage) (now : Int) (ic : InsertComparison) :
    Comparison × MemStorage :=
  let id := s.currentComparisonId
  let c : Comparison :=
    { id := ic.id.getD id, userAId := ic.userAId, userBId := ic.userBId,
      argumentText := ic.argumentText, explanation := ic.explanation,
      createdAt := now }
  (c, { s with comparisons := mapSet s.comparisons id c,
               currentComparisonId := id + 1 })

/-- `handle.replace(/^@+/, '')` as done by the Archive Client
(`community-archive.ts`): drop the leading run of `@` characters. -/
def cleanHandle (h : String) : String :=
  String.mk (h.data.dropWhile (fun c => c == '@'))

/-- Patch used by the C5 witness. -/
def patchW : InsightPatch :=
  ⟨none, none, some "newdesc", none, none, none, none, none⟩

/-- Insert payload used by the C5 witness. -/
def insW : InsertInsight := ⟨none, some 3, "old", [], [], [], "w", 0⟩

/-- First user stored by the C7 witness. -/
def aliceIns1 : InsertUser := ⟨none, "alice1", "alice"⟩

/-- Second user stored by the C7 witness. -/
def aliceIns2 : InsertUser := ⟨none, "alice2", "alice"⟩

/-- Store holding two users whose handle is `alice`. -/
def aliceStore : MemStorage :=
  (createUser (createUser MemStorage.init aliceIns1).2 aliceIns2).2

/-- User payload carrying an explicit id, for the C9 witness. -/
def iuW7 : InsertUser := ⟨some 7, "u", "h"⟩

/-- Insight payload carrying an explicit id, for the C9 witness. -/
def iiW7 : InsertInsight := ⟨some 7, some 1, "d", [], [], [], "w", 0⟩

/-- Comparison payload carrying an explicit id, for the C9 witness. -/
def icW7 : InsertComparison := ⟨some 7, some 1, some 2, "a", "e", 0⟩

/-- Insight payload whose `userId` is 5, for the C2 counterexample. -/
def insIns5 : InsertInsight := ⟨none, some 5, "d", [], [], [], "w", 0⟩

/-- One create call against the store, with its payload (and the clock
value for comparisons). -/
inductive CreateOp where
  | user (u : InsertUser)
  | insight (i : InsertInsight)
  | comparison (now : Int) (c : InsertComparison)
deriving Repr

/-- Apply one create call to the store, keeping the new state. -/
def applyOp (s : MemStorage) : CreateOp → MemStorage
  | .user u => (createUser s u).2
  | .insight i => (createInsight s i).2
  | .comparison now c => (createComparison s now c).2

/-- Run a sequence of create calls against a fresh `MemStorage`. -/
def runOps (ops : List CreateOp) : MemStorage :=
  ops.foldl applyOp MemStorage.init

/-- Indicator of a `createUser` call. -/
def uCount : CreateOp → Nat
  | .user _ => 1
  | _ => 0

/-- Indicator of a `createInsight` call. -/
def iCount : CreateOp → Nat
  | .insight _ => 1
  | _ => 0

/-- Indicator of a `createComparison` call. -/
def cCount : CreateOp → Nat
  | .comparison _ _ => 1
  | _ => 0

/-- Number of `createUser` calls in the sequence. -/
def countUser : List CreateOp → Nat
  | [] => 0
  | op :: rest => uCount op + countUser rest

/-- Number of `createInsight` calls in the sequence. -/
def countInsight : List CreateOp → Nat
  | [] => 0
  | op :: rest => iCount op + countInsight rest

/-- Number of `createComparison` calls in the sequence. -/
def countComparison : List CreateOp → Nat
  | [] => 0
  | op :: rest => cCount op + countComparison rest

/-- The list `[1, 2, ..., n]` of the first `n` assigned ids. -/
def idList (n : Nat) : List Int :=
  (List.range n).map (fun (k : Nat) => ((k : Int) + 1 : Int))

/-- The record carries no payload-supplied id. -/
def opNoId : CreateOp → Bool
  | .user u => u.id.isNone
  | .insight i => i.id.isNone
  | .comparison _ c => c.id.isNone

/-- Counter/key invariant: each map's keys are exactly `[1..n]` in
insertion order and the matching counter reads `n + 1`. -/
def storeInv (s : MemStorage) (nu ni nc : Nat) : Prop :=
  s.users.map Prod.fst = idList nu ∧ s.currentUserId = (nu : Int) + 1 ∧
  s.insights.map Prod.fst = idList ni ∧ s.currentInsightId = (ni : Int) + 1 ∧
  s.comparisons.map Prod.fst = idList nc ∧ s.currentComparisonId = (nc : Int) + 1

/-- Record ids equal map keys in all three maps. -/
def recIds (s : MemStorage) : Prop :=
  (∀ p ∈ s.users, p.2.id = p.1) ∧ (∀ p ∈ s.insights, p.2.id = p.1) ∧
  (∀ p ∈ s.comparisons, p.2.id = p.1)

/-- User payload for the C2 witness. -/
def iuW : InsertUser := ⟨none, "bob", "bobh"⟩

/-- Comparison payload for the C2 witness. -/
def icW : InsertComparison := ⟨none, some 1, some 2, "a", "e", 99⟩

/-- Operation sequence exercised by the C1 witness. -/
def opsW : List CreateOp :=
  [.user aliceIns1, .user aliceIns2, .insight insW, .comparison 5 icW]

/-- JSON-compatible JavaScript values, plus `undefined` (needed because
property access on a missing key yields `undefined`).  Numbers are
integers here: every number this code ever inspects is an array length or
a JSON integer literal. -/
inductive JSValue where
  | undefined
  | null
  | bool (b : Bool)
  | num (n : Int)
  | str (s : String)
  | arr (elems : List JSValue)
  | obj (fields : List (String × JSValue))

/-- JavaScript truthiness of the values we model. -/
def truthy : JSValue → Bool
  | .undefined => false
  | .null => false
  | .bool b => b
  | .num n => n != 0
  | .str s => !s.isEmpty
  | .arr _ => true
  | .obj _ => true

/-- JavaScript property access `v.k`: a TypeError (modelled as
`Except.error`) on `null`/`undefined`, the looked-up field (or
`undefined`) on objects, `length`/index behaviour on strings and arrays,
`undefined` on other primitives.  Prototype methods are modelled at the
call sites that invoke them. -/
def getProp : JSValue → String → Except String JSValue
  | .undefined, k => .error ("TypeError: cannot read properties of undefined (reading " ++ k ++ ")")
  | .null, k => .error ("TypeError: cannot read properties of null (reading " ++ k ++ ")")
  | .bool _, _ => .ok .undefined
  | .num _, _ => .ok .undefined
  | .str s, k =>
    if k = "length" then .ok (.num s.length)
    else
      match k.toNat? with
      | some i =>
        match s.data.get? i with
        | some c => .ok (.str (String.mk [c]))
        | none => .ok .undefined
      | none => .ok .undefined
  | .arr xs, k =>
    if k = "length" then .ok (.num xs.length)
    else
      match k.toNat? with
      | some i => .ok (xs.getD i .undefined)
      | none => .ok .undefined
  | .obj fs, k =>
    .ok (match fs.find? (fun p => p.1 == k) with
         | some p => p.2
         | none => .undefined)

/-- JavaScript bracket access `v[i]` with a numeric literal index. -/
def getIndex : JSValue → Nat → Except String JSValue
  | .undefined, i => .error ("TypeError: cannot read properties of undefined (reading " ++ toString i ++ ")")
  | .null, i => .error ("TypeError: cannot read properties of null (reading " ++ toString i ++ ")")
  | .bool _, _ => .ok .undefined
  | .num _, _ => .ok .undefined
  | .str s, i =>
    match s.data.get? i with
    | some c => .ok (.str (String.mk [c]))
    | none => .ok .undefined
  | .arr xs, i => .ok (xs.getD i .undefined)
  | .obj fs, i => getProp (.obj fs) (toString i)

/-- JavaScript `x > 0` on the values `.length`-style access can yield
(object/array operand coercion is approximated as false; those operands
never arise on the paths proved about). -/
def jsGtZero : JSValue → Bool
  | .num n => 0 < n
  | .str s =>
    (match (if (s.trim.isEmpty : Bool) then some (0 : Int) else s.trim.toInt?) with
     | some n => 0 < n
     | none => false)
  | .bool b => b
  | _ => false

/-- The greedy regex `/\x7b[\s\S]*\x7d/` of `match`: succeeds iff the first
`\x7b` occurs before the last `\x7d`, and returns the inclusive slice
between them. -/
def jsonMatch (s : String) : Option String :=
  match s.data.findIdx? (fun c => c == '\x7b'),
        s.data.reverse.findIdx? (fun c => c == '\x7d') with
  | some i, some k =>
    let j := s.data.length - 1 - k
    if i < j then some (String.mk ((s.data.drop i).take (j - i + 1))) else none
  | _, _ => none

/-- Outcome of one `fetch` of the generative-text service, as seen by the
calling code: the promise rejected, the response was non-ok (with its
error body text), or it was ok with a raw body (which `response.json()`
parses). -/
inductive FetchOutcome where
  | networkError (msg : String)
  | httpError (status : Nat) (errorText : String)
  | okRaw (body : String)

/-- A host JSON parser: `none` models `JSON.parse` throwing. -/
abbrev JsonParser := String → Option JSValue

/-- The result object of `generateInsights`.  `description` keeps the raw
JavaScript value (`parsed.description \x7c\x7c fallback` does not coerce
to string); `topics` is the element list of `parsed.topics` when that is
an array, `[]` otherwise. -/
structure InsightResult where
  description : JSValue
  topics : List JSValue

/-- Fallback returned when the response text holds no recognizable JSON
object (or the candidates check fails). -/
def fallbackNoJson : InsightResult :=
  ⟨.str "This user appears to be interested in technology and social media.",
   [.str "Technology", .str "Social Media"]⟩

/-- Fallback returned by the inner catch, when parsing the response throws. -/
def fallbackParseError : InsightResult :=
  ⟨.str "Error parsing AI response. The user appears to be active on social media.",
   [.str "Social Media"]⟩

/-- Fallback returned by the outer catch, when the API call itself fails. -/
def fallbackOuter : InsightResult :=
  ⟨.str "Unable to analyze the Twitter profile at this time.",
   [.str "Unknown"]⟩

/-- The prompt template of `generateInsights`. -/
def insightsPrompt (tweetHistory : String) : String :=
  "\n    Analyze this Twitter history and provide insights in JSON format:\n    \x7b\n      \"description\": \"A comprehensive description of the person\",\n      \"topics\": [\"important topic 1\", \"important topic 2\"]\n    \x7d\n\n    Tweet history:\n    " ++ tweetHistory

/-- The condition `data.candidates && data.candidates.length > 0`. -/
def candidatesNonempty (data : JSValue) : Except String Bool :=
  match getProp data "candidates" with
  | .error e => .error e
  | .ok c =>
    if truthy c then
      match getProp c "length" with
      | .error e => .error e
      | .ok len => .ok (jsGtZero len)
    else .ok false

/-- The chain `data.candidates[0].content.parts[0].text`. -/
def extractTextContent (data : JSValue) : Except String JSValue :=
  match getProp data "candidates" with
  | .error e => .error e
  | .ok cands =>
    match getIndex cands 0 with
    | .error e => .error e
    | .ok c0 =>
      match getProp c0 "content" with
      | .error e => .error e
      | .ok content =>
        match getProp content "parts" with
        | .error e => .error e
        | .ok parts =>
          match getIndex parts 0 with
          | .error e => .error e
          | .ok p0 => getProp p0 "text"

/-- Calling a string method (`substring`, `match`) on a value: a TypeError
unless the receiver is a string. -/
def asStringMethod : JSValue → Except String String
  | .str s => .ok s
  | _ => .error "TypeError: receiver has no such method"

/-- The object literal built from a successfully parsed JSON value:
`description: parsed.description \x7c\x7c default` and
`topics: Array.isArray(parsed.topics) ? parsed.topics : []`
(the property reads throw on `null`, caught by the inner catch). -/
def buildResult (parsed : JSValue) : Except String InsightResult :=
  match getProp parsed "description" with
  | .error e => .error e
  | .ok d =>
    match getProp parsed "topics" with
    | .error e => .error e
    | .ok t =>
      .ok ⟨(if truthy d then d
            else .str "AI couldn't generate a description"),
           (match t with | .arr xs => xs | _ => [])⟩

/-- The inner try block of `generateInsights`: candidates check, text
extraction, regex JSON carving, `JSON.parse`, result building.  Falls
through to `fallbackNoJson` when the check fails or no JSON is found; any
thrown error is the inner catch's to turn into `fallbackParseError`. -/
def insightsInner (jsonParse : JsonParser) (data : JSValue) :
    Except String InsightResult :=
  match candidatesNonempty data with
  | .error e => .error e
  | .ok cond =>
    if cond then
      match extractTextContent data with
      | .error e => .error e
      | .ok tc =>
        match asStringMethod tc with
        | .error e => .error e
        | .ok textContent =>
          match jsonMatch textContent with
          | some jsonStr =>
            (match jsonParse jsonStr with
             | some parsed => buildResult parsed
             | none => .error "SyntaxError: JSON.parse threw")
          | none => .ok fallbackNoJson
    else .ok fallbackNoJson

/-- `gemini.generateInsights(tweetHistory)`: throws when the API key is
absent (this check sits before the try blocks); otherwise the outer catch
turns any request-level failure (rejected fetch, non-ok status, unparsable
body) into `fallbackOuter`, and the inner catch turns any parse-level
throw into `fallbackParseError`. -/
def generateInsights (apiKey : Option String) (world : FetchOutcome)
    (jsonParse : JsonParser) (tweetHistory : String) :
    Except String InsightResult :=
  match apiKey with
  | none => .error "GEMINI_API_KEY environment variable is not set"
  | some _ =>
    let _promptText := insightsPrompt tweetHistory
    match world with
    | .networkError _ => .ok fallbackOuter
    | .httpError _ _ => .ok fallbackOuter
    | .okRaw body =>
      match jsonParse body with
      | none => .ok fallbackOuter
      | some data =>
        match insightsInner jsonParse data with
        | .ok r => .ok r
        | .error _ => .ok fallbackParseError

/-- Zod check of one part: an object with a string `text` field. -/
def isTextPart : JSValue → Bool
  | .obj fs =>
    (match fs.find? (fun p => p.1 == "text") with
     | some (_, .str _) => true
     | _ => false)
  | _ => false

/-- Zod check of one candidate: `content.parts` is an array of text parts. -/
def validCandidate : JSValue → Bool
  | .obj fs =>
    (match fs.find? (fun p => p.1 == "content") with
     | some (_, .obj cfs) =>
       (match cfs.find? (fun p => p.1 == "parts") with
        | some (_, .arr parts) => parts.all isTextPart
        | _ => false)
     | _ => false)
  | _ => false

/-- `GeminiResponseSchema.parse`: an object whose `candidates` field is an
array of valid candidates. -/
def validGeminiResponse : JSValue → Bool
  | .obj fs =>
    (match fs.find? (fun p => p.1 == "candidates") with
     | some (_, .arr cs) => cs.all validCandidate
     | _ => false)
  | _ => false

/-- After schema validation: `candidates[0].content.parts[0].text` when
both the candidate list and its first part list are nonempty, otherwise
the `No content in the response` error. -/
def firstText (data : JSValue) : Except String String :=
  match data with
  | .obj fs =>
    (match fs.find? (fun p => p.1 == "candidates") with
     | some (_, .arr (c :: _)) =>
       (match c with
        | .obj cfs =>
          (match cfs.find? (fun p => p.1 == "content") with
           | some (_, .obj ccfs) =>
             (match ccfs.find? (fun p => p.1 == "parts") with
              | some (_, .arr (p :: _)) =>
                (match p with
                 | .obj pfs =>
                   (match pfs.find? (fun q => q.1 == "text") with
                    | some (_, .str t) => .ok t
                    | _ => .error "No content in the response")
                 | _ => .error "No content in the response")
              | _ => .error "No content in the response")
           | _ => .error "No content in the response")
        | _ => .error "No content in the response")
     | _ => .error "No content in the response")
  | _ => .error "No content in the response"

/-- `generateText(prompt, options)`: throws when the API key is absent;
otherwise every failure (rejected fetch, non-ok status, unparsable body,
schema mismatch, missing content) is logged and rethrown — nothing is
swallowed.  The sampling options only shape the outgoing request, which
the fetch-outcome oracle abstracts. -/
def generateText (apiKey : Option String) (world : FetchOutcome)
    (jsonParse : JsonParser) (prompt : String) : Except String String :=
  match apiKey with
  | none => .error "GEMINI_API_KEY environment variable is not set"
  | some _ =>
    let _p := prompt
    match world with
    | .networkError msg => .error msg
    | .httpError status _ => .error ("Gemini API error: " ++ toString status)
    | .okRaw body =>
      match jsonParse body with
      | none => .error "SyntaxError: response body is not JSON"
      | some data =>
        if validGeminiResponse data then firstText data
        else .error "ZodError: response failed schema validation"

/-- The prompt template of `translateBetweenFrames`. -/
def translatePrompt (sourceText targetHandle : String) : String :=
  "Analyze the following text and translate it into a different conceptual frame.\n\nSource text:\n" ++ sourceText ++
  "\n\nFirst, detect and name the conceptual frame/paradigm of this text (e.g., \"woo-woo\", \"STEM\", \"academic\", \"practical\", etc.).\nThen, translate this text to match @" ++ targetHandle ++
  "\x27s typical communication style and conceptual frame.\nMaintain the core meaning but express it in a way that would resonate with " ++ targetHandle ++
  "\x27s perspective.\n\nOutput your response in this exact JSON format:\n\x7b\n  \"sourceFrame\": \"name of detected frame\",\n  \"targetFrame\": \"name of target frame\",\n  \"translation\": \"translated text\"\n\x7d"

/-- Result object of `translateBetweenFrames`; the fields keep whatever
JavaScript values the parsed JSON carried (possibly `undefined`). -/
structure FrameTranslation where
  sourceFrame : JSValue
  targetFrame : JSValue
  translation : JSValue

/-- `gemini.translateBetweenFrames(sourceText, targetHandle)`: generates
text, carves a JSON object out of it, parses, and reads the three fields;
every failure on that path is rethrown by the catch — no fallback. -/
def translateBetweenFrames (apiKey : Option String) (world : FetchOutcome)
    (jsonParse : JsonParser) (sourceText targetHandle : String) :
    Except String FrameTranslation :=
  match generateText apiKey world jsonParse
          (translatePrompt sourceText targetHandle) with
  | .error e => .error e
  | .ok response =>
    match jsonMatch response with
    | some m =>
      (match jsonParse m with
       | none => .error "SyntaxError: JSON.parse threw"
       | some result =>
         match getProp result "sourceFrame" with
         | .error e => .error e
         | .ok sf =>
           match getProp result "targetFrame" with
           | .error e => .error e
           | .ok tf =>
             match getProp result "translation" with
             | .error e => .error e
             | .ok tr => .ok ⟨sf, tf, tr⟩)
    | none => .error "Could not parse JSON from response"

/-- The HTTP request `getRecentPopularTweets` issues to the archive
service: the cleaned handle is computed (and logged) but the URL and
headers are built from the base URL, the `SUPABASE_KEY` configuration and
the limit only. -/
structure ArchiveRequest where
  url : String
  headers : List (String × String)
deriving DecidableEq, Repr

/-- Request construction inside `getRecentPopularTweets(handle, limit)`. -/
def tweetRequest (baseUrl : String) (supabaseKey : Option String)
    (handle : String) (limit : Int) : ArchiveRequest :=
  let _cleanHandle := cleanHandle handle
  { url := baseUrl ++ "/rest/v1/tweets?select=*&order=favorite_count.desc&limit="
      ++ toString limit,
    headers :=
      [("Accept", "application/json"),
       ("Content-Type", "application/json"),
       ("apikey", supabaseKey.getD ""),
       ("Authorization", "Bearer " ++ supabaseKey.getD "")] }

/-- Gemini response object whose text content is a brace-delimited blob
that is not valid JSON. -/
def geminiDataBad : JSValue :=
  .obj [("candidates", .arr [.obj [("content", .obj [("parts",
    .arr [.obj [("text", .str "\x7bnot json\x7d")]])])]])]

/-- The raw response body whose `JSON.parse` image is `geminiDataBad`. -/
def geminiBodyBad : String :=
  "\x7b\"candidates\":[\x7b\"content\":\x7b\"parts\":[\x7b\"text\":\"\x7bnot json\x7d\"\x7d]\x7d\x7d]\x7d"

/-- Host JSON parser behaviour on the two strings the bad-blob run feeds
it: the response body parses to `geminiDataBad`; the carved-out blob
`\x7bnot json\x7d` (like any other string here) throws. -/
def jsonParseBad : JsonParser := fun s =>
  if s == geminiBodyBad then some geminiDataBad else none

/-- Gemini response object whose text content holds no brace at all. -/
def geminiDataPlain : JSValue :=
  .obj [("candidates", .arr [.obj [("content", .obj [("parts",
    .arr [.obj [("text", .str "plain prose with no json")]])])]])]

/-- The raw response body whose `JSON.parse` image is `geminiDataPlain`. -/
def geminiBodyPlain : String :=
  "\x7b\"candidates\":[\x7b\"content\":\x7b\"parts\":[\x7b\"text\":\"plain prose with no json\"\x7d]\x7d\x7d]\x7d"

/-- Host JSON parser behaviour for the plain-prose run. -/
def jsonParsePlain : JsonParser := fun s =>
  if s == geminiBodyPlain then some geminiDataPlain else none

/-- Gemini response object whose text content is prose without braces,
for the C8 witness. -/
def geminiDataProse : JSValue :=
  .obj [("candidates", .arr [.obj [("content", .obj [("parts",
    .arr [.obj [("text", .str "just prose")]])])]])]

/-- The raw response body whose `JSON.parse` image is `geminiDataProse`. -/
def geminiBodyProse : String :=
  "\x7b\"candidates\":[\x7b\"content\":\x7b\"parts\":[\x7b\"text\":\"just prose\"\x7d]\x7d\x7d]\x7d"

/-- Host JSON parser behaviour for the C8 witness run. -/
def jsonParseProse : JsonParser := fun s =>
  if s == geminiBodyProse then some geminiDataProse else none

section MapLemmas

variable {α : Type}

lemma find_replace (m : JsMap α) (k : Int) (v : α)
    (h : m.any (fun p => p.1 == k) = true) :
    (m.map (fun p => if p.1 == k then (k, v) else p)).find?
      (fun p => p.1 == k) = some (k, v) := by
  induction m with
  | nil => simp at h
  | cons p rest ih =>
    by_cases hpk : p.1 = k
    · simp [List.find?, hpk]
    · have hb : (p.1 == k) = false := by simp [hpk]
      have hrest : rest.any (fun p => p.1 == k) = true := by
        simp only [List.any_cons, hb, Bool.false_or] at h
        exact h
      simpa [List.find?, hb] using ih hrest

lemma find_append_none (m : JsMap α) (k : Int) (v : α)
    (h : m.any (fun p => p.1 == k) = false) :
    (m ++ [(k, v)]).find? (fun p => p.1 == k) = some (k, v) := by
  induction m with
  | nil => simp [List.find?]
  | cons p rest ih =>
    simp only [List.any_cons, Bool.or_eq_false_iff] at h
    simpa [List.find?, h.1] using ih h.2

/-- After `set(k, v)`, `get(k)` returns `v`, whether the key was fresh or
replaced in place. -/
lemma mapGet_mapSet_self (m : JsMap α) (k : Int) (v : α) :
    mapGet (mapSet m k v) k = some v := by
  unfold mapGet mapSet
  cases h : m.any (fun p => p.1 == k) with
  | true => rw [if_pos rfl, find_replace m k v h]; rfl
  | false =>
    rw [if_neg (by simp), find_append_none m k v h]; rfl

lemma findValue_replace (m : JsMap α) (k : Int) (v : α) (pred : α → Bool)
    (h : m.any (fun p => p.1 == k) = true)
    (hm : ∀ x ∈ mapValues m, pred x = false) (hv : pred v = true) :
    (mapValues (m.map (fun p => if p.1 == k then (k, v) else p))).find? pred
      = some v := by
  induction m with
  | nil => simp at h
  | cons p rest ih =>
    by_cases hpk : p.1 = k
    · simp [mapValues, List.find?, hpk, hv]
    · have hb : (p.1 == k) = false := by simp [hpk]
      have hrest : rest.any (fun p => p.1 == k) = true := by
        simp only [List.any_cons, hb, Bool.false_or] at h
        exact h
      have hp2 : pred p.2 = false := hm p.2 (by simp [mapValues])
      have hm' : ∀ x ∈ mapValues rest, pred x = false := by
        intro x hx
        exact hm x (by simp [mapValues] at hx ⊢; exact Or.inr hx)
      simpa [mapValues, List.find?, hb, hp2] using ih hrest hm'

lemma findValue_append (m : JsMap α) (k : Int) (v : α) (pred : α → Bool)
    (hm : ∀ x ∈ mapValues m, pred x = false) (hv : pred v = true) :
    (mapValues (m ++ [(k, v)])).find? pred = some v := by
  induction m with
  | nil => simp [mapValues, List.find?, hv]
  | cons p rest ih =>
    have hp2 : pred p.2 = false := hm p.2 (by simp [mapValues])
    have hm' : ∀ x ∈ mapValues rest, pred x = false := by
      intro x hx
      exact hm x (by simp [mapValues] at hx ⊢; exact Or.inr hx)
    simpa [mapValues, List.find?, hp2] using ih hm'

/-- A value inserted by `set` is the first one satisfying `pred` among the
map's values when no previous value satisfied it. -/
lemma findValue_mapSet (m : JsMap α) (k : Int) (v : α) (pred : α → Bool)
    (hm : ∀ x ∈ mapValues m, pred x = false) (hv : pred v = true) :
    (mapValues (mapSet m k v)).find? pred = some v := by
  unfold mapSet
  cases h : m.any (fun p => p.1 == k) with
  | true => rw [if_pos rfl]; exact findValue_replace m k v pred h hm hv
  | false =>
    rw [if_neg (by simp)]; exact findValue_append m k v pred hm hv

end MapLemmas

/-- C5: `updateInsight` on an id with no stored Insight fails with the
NotFound error and leaves the insight store unchanged; on a stored id it
shallowly merges the patch over the existing record, stores the merged
record under the same key, and returns it. -/
theorem C5_updateInsight (s : MemStorage) (id : Int) (p : InsightPatch) :
    (mapGet s.insights id = none →
      updateInsight s id p =
        (Except.error ("Insight not found: " ++ toString id), s)) ∧
    (∀ e, mapGet s.insights id = some e →
      updateInsight s id p =
        (Except.ok (applyPatch e p),
         { s with insights := mapSet s.insights id (applyPatch e p) }) ∧
      mapGet (updateInsight s id p).2.insights id = some (applyPatch e p)) := by
  constructor
  · intro h; simp [updateInsight, h]
  · intro e he
    refine ⟨by simp [updateInsight, he], ?_⟩
    simp [updateInsight, he, mapGet_mapSet_self]

theorem C5_updateInsight_witness :
    updateInsight MemStorage.init 1 patchW =
      (Except.error ("Insight not found: " ++ toString (1 : Int)),
       MemStorage.init) ∧
    mapGet (updateInsight (createInsight MemStorage.init insW).2 1 patchW).2.insights 1
      = some (applyPatch (createInsight MemStorage.init insW).1 patchW) := by
  refine ⟨(C5_updateInsight MemStorage.init 1 patchW).1 rfl, ?_⟩
  exact ((C5_updateInsight (createInsight MemStorage.init insW).2 1 patchW).2
    (createInsight MemStorage.init insW).1 (by decide)).2

/-- C6: the `Comparison` returned by `createComparison` carries the
server-assigned creation time (any caller-supplied `createdAt` in the
insert payload is overridden), its `userAId`/`userBId` equal the payload's
values, and the same record is stored under the assigned key. -/
theorem C6_createComparison (s : MemStorage) (now : Int) (ic : InsertComparison) :
    (createComparison s now ic).1.createdAt = now ∧
    (createComparison s now ic).1.userAId = ic.userAId ∧
    (createComparison s now ic).1.userBId = ic.userBId ∧
    mapGet (createComparison s now ic).2.comparisons s.currentComparisonId
      = some (createComparison s now ic).1 :=
  ⟨rfl, rfl, rfl, mapGet_mapSet_self _ _ _⟩

/-- C7: handle comparison in the Repository is exact-string over a linear
scan: when every stored user has handle `alice`, a lookup with `@alice`
matches nothing, a lookup with `alice` returns the first stored user, and
the stripping of leading `@` characters is performed by the Archive
Client's `cleanHandle` computation, not by the Repository. -/
theorem C7_handle_lookup (s : MemStorage)
    (h : ∀ u ∈ mapValues s.users, u.twitterHandle = "alice") :
    getUserByTwitterHandle s "@alice" = none ∧
    getUserByTwitterHandle s "alice" = (mapValues s.users).head? ∧
    cleanHandle "@alice" = "alice" := by
  refine ⟨?_, ?_, by decide⟩
  · rw [getUserByTwitterHandle]
    apply List.find?_eq_none.mpr
    intro u hu
    simp [h u hu]
  · cases hmv : mapValues s.users with
    | nil => simp [getUserByTwitterHandle, hmv]
    | cons u rest =>
      have hu : u.twitterHandle = "alice" := h u (by rw [hmv]; exact List.mem_cons_self u rest)
      simp [getUserByTwitterHandle, hmv, List.find?, hu]

theorem C7_handle_lookup_witness :
    getUserByTwitterHandle aliceStore "@alice" = none ∧
    getUserByTwitterHandle aliceStore "alice" = (mapValues aliceStore.users).head? ∧
    cleanHandle "@alice" = "alice" :=
  C7_handle_lookup aliceStore (by decide)

/-- C9: when the insert payload itself carries an `id` field with value
`v`, each `create*` operation returns and stores a record whose `id` field
is `v` (the payload spread overrides the assigned counter value) while the
record sits in the map under the auto-assigned counter key; on a fresh
store, looking the user up by the returned record's id misses whenever
`v ≠ 1`. -/
theorem C9_payload_id_override (s : MemStorage) (v now : Int)
    (iu : InsertUser) (ii : InsertInsight) (ic : InsertComparison)
    (hu : iu.id = some v) (hi : ii.id = some v) (hc : ic.id = some v) :
    ((createUser s iu).1.id = v ∧
      mapGet (createUser s iu).2.users s.currentUserId
        = some (createUser s iu).1) ∧
    ((createInsight s ii).1.id = v ∧
      mapGet (createInsight s ii).2.insights s.currentInsightId
        = some (createInsight s ii).1) ∧
    ((createComparison s now ic).1.id = v ∧
      mapGet (createComparison s now ic).2.comparisons s.currentComparisonId
        = some (createComparison s now ic).1) ∧
    (v ≠ 1 →
      getUser (createUser MemStorage.init iu).2 (createUser MemStorage.init iu).1.id
        = none) := by
  refine ⟨⟨by simp [createUser, hu], mapGet_mapSet_self _ _ _⟩,
          ⟨by simp [createInsight, hi], mapGet_mapSet_self _ _ _⟩,
          ⟨by simp [createComparison, hc], mapGet_mapSet_self _ _ _⟩, ?_⟩
  intro hv1
  have hb : ((1 : Int) == v) = false := by
    simp only [beq_eq_false_iff_ne, ne_eq]
    exact fun hvv => hv1 hvv.symm
  simp [getUser, createUser, hu, MemStorage.init, mapSet, mapGet, List.find?, hb]

theorem C9_payload_id_override_witness :
    ((createUser MemStorage.init iuW7).1.id = 7 ∧
      mapGet (createUser MemStorage.init iuW7).2.users MemStorage.init.currentUserId
        = some (createUser MemStorage.init iuW7).1) ∧
    ((createInsight MemStorage.init iiW7).1.id = 7 ∧
      mapGet (createInsight MemStorage.init iiW7).2.insights
          MemStorage.init.currentInsightId
        = some (createInsight MemStorage.init iiW7).1) ∧
    ((createComparison MemStorage.init 0 icW7).1.id = 7 ∧
      mapGet (createComparison MemStorage.init 0 icW7).2.comparisons
          MemStorage.init.currentComparisonId
        = some (createComparison MemStorage.init 0 icW7).1) ∧
    ((7 : Int) ≠ 1 →
      getUser (createUser MemStorage.init iuW7).2
          (createUser MemStorage.init iuW7).1.id
        = none) :=
  C9_payload_id_override MemStorage.init 7 0 iuW7 iiW7 icW7 rfl rfl rfl

/-- C2 counterexample: the record returned by `createInsight` (id 1,
userId 5) is stored, yet `getInsight` applied to the returned id finds
nothing, because `getInsight` scans by the `userId` field, not the id. -/
theorem C2_counterexample :
    (createInsight MemStorage.init insIns5).1.id = 1 ∧
    mapGet (createInsight MemStorage.init insIns5).2.insights 1
      = some (createInsight MemStorage.init insIns5).1 ∧
    getInsight (createInsight MemStorage.init insIns5).2
      (createInsight MemStorage.init insIns5).1.id = none := by
  decide

/-- C2 amended: records returned by `createUser` and `createComparison`
are retrievable unchanged via `getUser` / `getComparison` using the
returned id provided the insert payload carries no `id` field; a record
returned by `createInsight` is retrievable unchanged via `getInsight`
using the record's `userId` value (not its id), provided no
previously-stored insight has that `userId`. -/
theorem C2_roundtrip_amended (s : MemStorage) (now u : Int)
    (iu : InsertUser) (ii : InsertInsight) (ic : InsertComparison) :
    (iu.id = none →
      getUser (createUser s iu).2 (createUser s iu).1.id
        = some (createUser s iu).1) ∧
    (ic.id = none →
      getComparison (createComparison s now ic).2 (createComparison s now ic).1.id
        = some (createComparison s now ic).1) ∧
    (ii.userId = some u →
      (∀ i ∈ mapValues s.insights, i.userId ≠ some u) →
      getInsight (createInsight s ii).2 u = some (createInsight s ii).1) := by
  refine ⟨?_, ?_, ?_⟩
  · intro h
    have hid : (createUser s iu).1.id = s.currentUserId := by simp [createUser, h]
    rw [hid]
    exact mapGet_mapSet_self _ _ _
  · intro h
    have hid : (createComparison s now ic).1.id = s.currentComparisonId := by
      simp [createComparison, h]
    rw [hid]
    exact mapGet_mapSet_self _ _ _
  · intro hu hnone
    exact findValue_mapSet s.insights s.currentInsightId _ _
      (fun x hx => by simp [hnone x hx]) (by simp [createInsight, hu])

lemma mem_idList {n : Nat} {x : Int} (hx : x ∈ idList n) : 1 ≤ x ∧ x ≤ n := by
  unfold idList at hx
  rcases List.mem_map.mp hx with ⟨k, hk, rfl⟩
  have := List.mem_range.mp hk
  omega

lemma idList_succ (n : Nat) : idList (n + 1) = idList n ++ [(n : Int) + 1] := by
  unfold idList
  rw [List.range_succ, List.map_append]
  rfl

/-- `set` on a key absent from the map appends. -/
lemma mapSet_fresh {α : Type} (m : JsMap α) (k : Int) (v : α)
    (h : ∀ p ∈ m, p.1 ≠ k) : mapSet m k v = m ++ [(k, v)] := by
  have hany : m.any (fun p => p.1 == k) = false := by
    apply List.any_eq_false.mpr
    intro p hp
    simp [h p hp]
  unfold mapSet
  rw [if_neg (by simp [hany])]

lemma storeInv_init : storeInv MemStorage.init 0 0 0 := by
  refine ⟨rfl, by decide, rfl, by decide, rfl, by decide⟩

lemma storeInv_step (s : MemStorage) (nu ni nc : Nat) (op : CreateOp)
    (h : storeInv s nu ni nc) :
    storeInv (applyOp s op) (nu + uCount op) (ni + iCount op) (nc + cCount op) := by
  obtain ⟨h1, h2, h3, h4, h5, h6⟩ := h
  cases op with
  | user u =>
    have hfresh : ∀ p ∈ s.users, p.1 ≠ s.currentUserId := by
      intro p hp
      have hmem : p.1 ∈ idList nu := h1 ▸ List.mem_map_of_mem Prod.fst hp
      have := mem_idList hmem
      rw [h2]; omega
    refine ⟨?_, ?_, h3, h4, h5, h6⟩
    · show (mapSet s.users s.currentUserId _).map Prod.fst = idList (nu + 1)
      rw [mapSet_fresh _ _ _ hfresh, List.map_append, h1, idList_succ, h2]
      rfl
    · show s.currentUserId + 1 = ((nu + 1 : Nat) : Int) + 1
      rw [h2]; push_cast; ring
  | insight i =>
    have hfresh : ∀ p ∈ s.insights, p.1 ≠ s.currentInsightId := by
      intro p hp
      have hmem : p.1 ∈ idList ni := h3 ▸ List.mem_map_of_mem Prod.fst hp
      have := mem_idList hmem
      rw [h4]; omega
    refine ⟨h1, h2, ?_, ?_, h5, h6⟩
    · show (mapSet s.insights s.currentInsightId _).map Prod.fst = idList (ni + 1)
      rw [mapSet_fresh _ _ _ hfresh, List.map_append, h3, idList_succ, h4]
      rfl
    · show s.currentInsightId + 1 = ((ni + 1 : Nat) : Int) + 1
      rw [h4]; push_cast; ring
  | comparison now c =>
    have hfresh : ∀ p ∈ s.comparisons, p.1 ≠ s.currentComparisonId := by
      intro p hp
      have hmem : p.1 ∈ idList nc := h5 ▸ List.mem_map_of_mem Prod.fst hp
      have := mem_idList hmem
      rw [h6]; omega
    refine ⟨h1, h2, h3, h4, ?_, ?_⟩
    · show (mapSet s.comparisons s.currentComparisonId _).map Prod.fst
        = idList (nc + 1)
      rw [mapSet_fresh _ _ _ hfresh, List.map_append, h5, idList_succ, h6]
      rfl
    · show s.currentComparisonId + 1 = ((nc + 1 : Nat) : Int) + 1
      rw [h6]; push_cast; ring

lemma storeInv_fold (ops : List CreateOp) (s : MemStorage) (nu ni nc : Nat)
    (h : storeInv s nu ni nc) :
    storeInv (ops.foldl applyOp s)
      (nu + countUser ops) (ni + countInsight ops) (nc + countComparison ops) := by
  induction ops generalizing s nu ni nc with
  | nil => simpa [countUser, countInsight, countComparison] using h
  | cons op rest ih =>
    simp only [List.foldl_cons, countUser, countInsight, countComparison,
      ← Nat.add_assoc]
    exact ih _ _ _ _ (storeInv_step s nu ni nc op h)

/-- Inserting a value whose id field equals the key preserves the
"record id equals map key" property, on either `set` branch. -/
lemma idKey_mapSet {α : Type} (f : α → Int) (m : JsMap α) (k : Int) (v : α)
    (hm : ∀ p ∈ m, f p.2 = p.1) (hv : f v = k) :
    ∀ p ∈ mapSet m k v, f p.2 = p.1 := by
  intro p hp
  unfold mapSet at hp
  by_cases h : m.any (fun q => q.1 == k) = true
  · rw [if_pos h] at hp
    rcases List.mem_map.mp hp with ⟨q, hq, rfl⟩
    by_cases hqk : (q.1 == k) = true
    · simp [hqk, hv]
    · simp only [Bool.not_eq_true] at hqk
      simp [hqk, hm q hq]
  · rw [if_neg h] at hp
    rcases List.mem_append.mp hp with hin | hin
    · exact hm p hin
    · rcases List.mem_singleton.mp hin with rfl
      exact hv

lemma recIds_step (s : MemStorage) (op : CreateOp)
    (h : recIds s) (hop : opNoId op = true) : recIds (applyOp s op) := by
  obtain ⟨h1, h2, h3⟩ := h
  cases op with
  | user u =>
    have hu : u.id = none := by
      simpa [opNoId, Option.isNone_iff_eq_none] using hop
    exact ⟨idKey_mapSet User.id s.users s.currentUserId _ h1 (by simp [hu]),
           h2, h3⟩
  | insight i =>
    have hi : i.id = none := by
      simpa [opNoId, Option.isNone_iff_eq_none] using hop
    exact ⟨h1,
           idKey_mapSet Insight.id s.insights s.currentInsightId _ h2
             (by simp [hi]),
           h3⟩
  | comparison now c =>
    have hc : c.id = none := by
      simpa [opNoId, Option.isNone_iff_eq_none] using hop
    exact ⟨h1, h2,
           idKey_mapSet Comparison.id s.comparisons s.currentComparisonId _ h3
             (by simp [hc])⟩

lemma recIds_fold (ops : List CreateOp) (s : MemStorage)
    (h : recIds s) (hops : ∀ op ∈ ops, opNoId op = true) :
    recIds (ops.foldl applyOp s) := by
  induction ops generalizing s with
  | nil => simpa using h
  | cons op rest ih =>
    simp only [List.foldl_cons]
    exact ih _ (recIds_step s op h (hops op (by simp)))
      (fun o ho => hops o (by simp [ho]))

lemma idList_pairwise (n : Nat) : List.Pairwise (· < ·) (idList n) := by
  unfold idList
  refine List.Pairwise.map _ ?_ (List.pairwise_lt_range n)
  intro a b hab
  omega

/-- C1: for every sequence of create calls, the assigned ids (the map keys)
within each entity kind are exactly `[1..n]` in order of creation — hence
strictly increasing from 1, unique within kind, and never reused — and, for
payloads carrying no explicit id, each stored record's id field equals its
assigned key. -/
theorem C1_assigned_ids (ops : List CreateOp) :
    ((runOps ops).users.map Prod.fst = idList (countUser ops) ∧
     (runOps ops).insights.map Prod.fst = idList (countInsight ops) ∧
     (runOps ops).comparisons.map Prod.fst = idList (countComparison ops)) ∧
    (List.Chain' (· < ·) ((runOps ops).users.map Prod.fst) ∧
     List.Chain' (· < ·) ((runOps ops).insights.map Prod.fst) ∧
     List.Chain' (· < ·) ((runOps ops).comparisons.map Prod.fst)) ∧
    (((runOps ops).users.map Prod.fst).Nodup ∧
     ((runOps ops).insights.map Prod.fst).Nodup ∧
     ((runOps ops).comparisons.map Prod.fst).Nodup) ∧
    ((∀ op ∈ ops, opNoId op = true) →
      (∀ p ∈ (runOps ops).users, p.2.id = p.1) ∧
      (∀ p ∈ (runOps ops).insights, p.2.id = p.1) ∧
      (∀ p ∈ (runOps ops).comparisons, p.2.id = p.1)) := by
  have hinv := storeInv_fold ops MemStorage.init 0 0 0 storeInv_init
  simp only [Nat.zero_add] at hinv
  obtain ⟨h1, _, h3, _, h5, _⟩ := hinv
  have hkeys : (runOps ops).users.map Prod.fst = idList (countUser ops) ∧
      (runOps ops).insights.map Prod.fst = idList (countInsight ops) ∧
      (runOps ops).comparisons.map Prod.fst = idList (countComparison ops) :=
    ⟨h1, h3, h5⟩
  refine ⟨hkeys, ?_, ?_, ?_⟩
  · exact ⟨hkeys.1 ▸ (idList_pairwise _).chain',
           hkeys.2.1 ▸ (idList_pairwise _).chain',
           hkeys.2.2 ▸ (idList_pairwise _).chain'⟩
  · exact ⟨hkeys.1 ▸ (idList_pairwise _).imp ne_of_lt,
           hkeys.2.1 ▸ (idList_pairwise _).imp ne_of_lt,
           hkeys.2.2 ▸ (idList_pairwise _).imp ne_of_lt⟩
  · intro hops
    exact recIds_fold ops MemStorage.init
      ⟨by simp [MemStorage.init], by simp [MemStorage.init],
       by simp [MemStorage.init]⟩ hops

theorem C1_assigned_ids_witness :
    (runOps opsW).users.map Prod.fst = idList (countUser opsW) ∧
    (∀ p ∈ (runOps opsW).users, p.2.id = p.1) :=
  ⟨(C1_assigned_ids opsW).1.1, ((C1_assigned_ids opsW).2.2.2 (by decide)).1⟩

theorem C2_roundtrip_amended_witness :
    getUser (createUser MemStorage.init iuW).2 (createUser MemStorage.init iuW).1.id
      = some (createUser MemStorage.init iuW).1 ∧
    getComparison (createComparison MemStorage.init 0 icW).2
        (createComparison MemStorage.init 0 icW).1.id
      = some (createComparison MemStorage.init 0 icW).1 ∧
    getInsight (createInsight MemStorage.init insW).2 3
      = some (createInsight MemStorage.init insW).1 :=
  ⟨(C2_roundtrip_amended MemStorage.init 0 3 iuW insW icW).1 rfl,
   (C2_roundtrip_amended MemStorage.init 0 3 iuW insW icW).2.1 rfl,
   (C2_roundtrip_amended MemStorage.init 0 3 iuW insW icW).2.2 rfl (by decide)⟩

/-- C3 counterexample: with the API key absent — one of the outcomes the
claim covers — `generateInsights` throws instead of resolving, because
the key check sits before both try blocks. -/
theorem C3_counterexample :
    generateInsights none (.okRaw "") (fun _ => none) "hi"
      = .error "GEMINI_API_KEY environment variable is not set" := rfl

/-- C3 amended: when the API key is absent `generateInsights` throws its
configuration error before any external call; whenever the key is
present, it resolves to some result for every fetch outcome and every
behaviour of the host JSON parser — never throws. -/
theorem C3_never_throws_amended :
    (∀ (w : FetchOutcome) (p : JsonParser) (t : String),
      generateInsights none w p t
        = .error "GEMINI_API_KEY environment variable is not set") ∧
    (∀ (k : String) (w : FetchOutcome) (p : JsonParser) (t : String),
      ∃ r, generateInsights (some k) w p t = Except.ok r) := by
  refine ⟨fun w p t => rfl, fun k w p t => ?_⟩
  cases w with
  | networkError m => exact ⟨fallbackOuter, rfl⟩
  | httpError st b => exact ⟨fallbackOuter, rfl⟩
  | okRaw body =>
    cases hp : p body with
    | none => exact ⟨fallbackOuter, by simp [generateInsights, hp]⟩
    | some data =>
      cases hin : insightsInner p data with
      | ok r => exact ⟨r, by simp [generateInsights, hp, hin]⟩
      | error e => exact ⟨fallbackParseError, by simp [generateInsights, hp, hin]⟩

/-- C4 counterexample: a response whose text contains a brace-delimited
blob that fails `JSON.parse` makes `generateInsights` return the
inner-catch fallback (one topic, `Error parsing AI response. ...`), not
the claimed no-JSON fallback pair (two topics). -/
theorem C4_counterexample :
    generateInsights (some "key") (.okRaw geminiBodyBad) jsonParseBad "history"
      = .ok fallbackParseError ∧
    fallbackParseError.description
      = .str "Error parsing AI response. The user appears to be active on social media." ∧
    fallbackNoJson.description
      = .str "This user appears to be interested in technology and social media." ∧
    fallbackParseError.topics.length = 1 ∧ fallbackNoJson.topics.length = 2 :=
  ⟨rfl, rfl, rfl, rfl, rfl⟩

/-- C4 amended: with the key present and a response whose extracted text
content is the string `s`, `generateInsights` returns the fixed fallback
pair `fallbackNoJson` when `s` holds no recognizable JSON object; when a
JSON object is carved out of `s` but parsing it throws, it instead
returns `fallbackParseError` (a different description and a single
default topic). -/
theorem C4_fallbacks_amended (k body t : String) (p : JsonParser)
    (data : JSValue) (s : String)
    (hbody : p body = some data)
    (hcond : candidatesNonempty data = .ok true)
    (htext : extractTextContent data = .ok (.str s)) :
    (jsonMatch s = none →
      generateInsights (some k) (.okRaw body) p t = .ok fallbackNoJson) ∧
    (∀ js, jsonMatch s = some js → p js = none →
      generateInsights (some k) (.okRaw body) p t = .ok fallbackParseError) := by
  constructor
  · intro hm
    simp [generateInsights, hbody, insightsInner, hcond, htext, asStringMethod, hm]
  · intro js hm hp
    simp [generateInsights, hbody, insightsInner, hcond, htext, asStringMethod,
      hm, hp]

theorem C4_fallbacks_amended_witness :
    generateInsights (some "key") (.okRaw geminiBodyPlain) jsonParsePlain "h"
      = .ok fallbackNoJson :=
  (C4_fallbacks_amended "key" geminiBodyPlain "h" jsonParsePlain geminiDataPlain
    "plain prose with no json" rfl rfl rfl).1 rfl

/-- C8: whenever the generated response text holds no recognizable JSON
object, or the carved-out text fails `JSON.parse`,
`translateBetweenFrames` propagates an error to its caller — there is no
fallback result. -/
theorem C8_translate_propagates (apiKey : Option String) (w : FetchOutcome)
    (p : JsonParser) (src tgt resp : String)
    (hresp : generateText apiKey w p (translatePrompt src tgt) = .ok resp)
    (hfail : jsonMatch resp = none ∨
             ∃ m, jsonMatch resp = some m ∧ p m = none) :
    ∃ e, translateBetweenFrames apiKey w p src tgt = .error e := by
  unfold translateBetweenFrames
  rw [hresp]
  rcases hfail with hm | ⟨m, hm, hp⟩
  · exact ⟨"Could not parse JSON from response", by simp [hm]⟩
  · exact ⟨"SyntaxError: JSON.parse threw", by simp [hm, hp]⟩

theorem C8_translate_propagates_witness :
    ∃ e, translateBetweenFrames (some "key") (.okRaw geminiBodyProse)
        jsonParseProse "source" "target" = .error e :=
  C8_translate_propagates (some "key") (.okRaw geminiBodyProse) jsonParseProse
    "source" "target" "just prose" rfl (Or.inl rfl)

/-- C10: the archive request issued by `getRecentPopularTweets` is
identical for every handle argument — only the base URL, the key
configuration and the limit shape it. -/
theorem C10_request_handle_independent (baseUrl : String)
    (key : Option String) (h1 h2 : String) (limit : Int) :
    tweetRequest baseUrl key h1 limit = tweetRequest baseUrl key h2 limit := rfl

end VibeTranslator
